import Mathlib

/-!
# Verification of the clytia terminal-interaction library

Shallow embedding of src/src/lib.rs.  Pure aspects (prompt parsing,
menu state machines, progress-bar geometry) are translated directly;
effectful aspects (reads from the input stream, writes to the output
stream, thread scheduling) are made explicit parameters or traces.

Conventions:
* a Rust panic (integer underflow, modulo by zero, slice index out of
  bounds) is modelled as the value `none` of an `Option` result;
* the library's `Error` enum is translated constructor for constructor;
* one call to termion's `TermRead::read_line` is modelled as an
  `Option String` (`none` is an exhausted source / EOF, `some line` a
  read line); an input source is the list of values successive calls
  return, an exhausted source keeps returning `none` forever.
-/

namespace Clytia

/-- A key event delivered by termion's raw-mode key iterator.
Arrow keys `Up` and `Down` and printable characters are the cases the
menus inspect; every remaining `termion::event::Key` case is `other`. -/
inductive MKey where
  | up
  | down
  | char (c : Char)
  | other
deriving DecidableEq

/-- Model of `std::io::Error` values: only their identity matters here. -/
abbrev IOErr := Nat

/-- The library's error enum (src/src/lib.rs lines 30-42).  It has exactly
three variants: `NonOptionalInput`, `Io(io::Error)`, `ParseError(String)`. -/
inductive Error where
  | nonOptionalInput
  | io (e : IOErr)
  | parseError (s : String)
deriving DecidableEq

deriving instance DecidableEq for Except

/-- Rust's `char::is_whitespace`: the Unicode White_Space property
(code points compared by value). -/
def rustIsWhitespace (c : Char) : Bool :=
  let n := c.toNat
  n = 0x9 || n = 0xA || n = 0xB || n = 0xC || n = 0xD || n = 0x20 ||
  n = 0x85 || n = 0xA0 || n = 0x1680 || (0x2000 <= n && n <= 0x200A) ||
  n = 0x2028 || n = 0x2029 || n = 0x202F || n = 0x205F || n = 0x3000

/-- Drop leading whitespace, as in Rust's `str::trim_start`. -/
def trimStartChars (l : List Char) : List Char :=
  l.dropWhile rustIsWhitespace

/-- Drop trailing whitespace, as in Rust's `str::trim_end`. -/
def trimEndChars (l : List Char) : List Char :=
  (l.reverse.dropWhile rustIsWhitespace).reverse

/-- Rust's `str::trim`: whitespace removed from both ends. -/
def rustTrim (s : String) : String :=
  ⟨trimEndChars (trimStartChars s.data)⟩

/-- The exact trimming pipeline the source applies to a read line:
`n.trim().trim_end()` (src lines 160/165/233/252). -/
def codeTrim (s : String) : String :=
  ⟨trimEndChars (trimEndChars (trimStartChars s.data))⟩

/-- Model of `Clytia::parsed_input` (src lines 129-173), input effects made explicit.
`parse` stands for `str::parse::<T>` at the caller's type, `line` for the
result of the single `read_line` call.  The prompt writes are omitted: they
do not influence the returned value. -/
def parsedInput {T : Type} (parse : String → Option T) (default : Option T)
    (line : Option String) : Except Error T :=
  match line with
  | none =>
    match default with
    | some v => Except.ok v
    | none => Except.error Error.nonOptionalInput
  | some n =>
    if codeTrim n = "" then
      match default with
      | some v => Except.ok v
      | none => Except.error Error.nonOptionalInput
    else
      match parse (codeTrim n) with
      | some v => Except.ok v
      | none => Except.error (Error.parseError (codeTrim n))

/-- The retry loop of `Clytia::validated_input` (src lines 187-276).
`inputs` lists the results of the successive `read_line` calls; once the
list is exhausted the source keeps yielding `none` (EOF is persistent).
`fuel` bounds the number of loop iterations that are executed; a result
`none` means the loop was still running after `fuel` iterations.
Each arm mirrors the source: an EOF read or a whitespace-only line
re-prompts and continues; a line that fails to parse propagates
`Error::ParseError` out of the function through the `?` operator
(src line 255); a parsed value is returned when `validate` accepts it
and re-prompted otherwise. -/
def validatedInputLoop {T : Type} (parse : String → Option T)
    (validate : T → Bool) :
    Nat → List (Option String) → Option (Except Error T)
  | 0, _ => none
  | fuel + 1, inputs =>
    match inputs.headD none with
    | none => validatedInputLoop parse validate fuel inputs.tail
    | some n =>
      if codeTrim n = "" then
        validatedInputLoop parse validate fuel inputs.tail
      else
        match parse (codeTrim n) with
        | none => some (Except.error (Error.parseError (codeTrim n)))
        | some v =>
          if validate v then some (Except.ok v)
          else validatedInputLoop parse validate fuel inputs.tail

/-- Checked `usize` subtraction: Rust `a - b` panics on underflow
(modelled as `none`). -/
def checkedSub (a b : Nat) : Option Nat :=
  if b ≤ a then some (a - b) else none

/-- Checked `usize` remainder: Rust `a % b` panics when `b = 0`
(modelled as `none`). -/
def checkedMod (a b : Nat) : Option Nat :=
  if b = 0 then none else some (a % b)

/-- The key loop of `Clytia::options_menu` (src lines 635-664) reduced to
its state: `sel` is the `selected` index, `n` the option count.  Per key:
`Up` sets `sel := (sel + n - 1) % n`, `Down` sets `sel := (sel + 1) % n`
(both with Rust's panicking `-` and `%`), the newline character breaks out
of the loop, every other key changes nothing.  Exhaustion of the key
iterator also ends the loop.  The redraw writes do not affect the state. -/
def optionsMenuLoop (n : Nat) (sel : Nat) : List MKey → Option Nat
  | [] => some sel
  | k :: rest =>
    match k with
    | MKey.up =>
      ((checkedSub (sel + n) 1).bind fun s => checkedMod s n).bind
        fun s => optionsMenuLoop n s rest
    | MKey.down =>
      (checkedMod (sel + 1) n).bind fun s => optionsMenuLoop n s rest
    | MKey.char c =>
      if c = '\n' then some sel else optionsMenuLoop n sel rest
    | MKey.other => optionsMenuLoop n sel rest

/-- `Clytia::options_menu` (src lines 611-681): run the key loop from
`selected = 0` and return `options[selected]` (src line 680), a panic when
the index is out of bounds. -/
def optionsMenu {α : Type} (options : List α) (keys : List MKey) : Option α :=
  (optionsMenuLoop options.length 0 keys).bind fun sel => options.get? sel

/-- The key loop of `Clytia::multichoice` (src lines 726-762) reduced to
its state: `h` is `highlighted`, `sel` the `selected` set (a `HashSet` in
the source; modelled as a duplicate-free list, only membership matters).
`Up` and `Down` update `h` exactly as in the options menu; a space removes
`h` from `sel` when present and inserts it otherwise; a newline breaks;
any other key changes nothing. -/
def multichoiceLoop (n : Nat) (h : Nat) (sel : List Nat) :
    List MKey → Option (Nat × List Nat)
  | [] => some (h, sel)
  | k :: rest =>
    match k with
    | MKey.up =>
      ((checkedSub (h + n) 1).bind fun s => checkedMod s n).bind
        fun h2 => multichoiceLoop n h2 sel rest
    | MKey.down =>
      (checkedMod (h + 1) n).bind fun h2 => multichoiceLoop n h2 sel rest
    | MKey.char c =>
      if c = ' ' then
        if h ∈ sel then multichoiceLoop n h (sel.erase h) rest
        else multichoiceLoop n h (h :: sel) rest
      else if c = '\n' then some (h, sel)
      else multichoiceLoop n h sel rest
    | MKey.other => multichoiceLoop n h sel rest

/-- `Clytia::multichoice` (src lines 697-787): run the key loop from
`highlighted = 0` and an empty selection, then return the options whose
index is in the final selection, in option order
(`options.iter().enumerate().filter(..).map(..).collect()`,
src lines 774-780). -/
def multichoice {α : Type} (options : List α) (keys : List MKey) :
    Option (List α) :=
  (multichoiceLoop options.length 0 [] keys).map fun st =>
    (options.enum.filter fun p => p.1 ∈ st.2).map fun p => p.2

/-- Result assembly of `Clytia::static_background_spinner`
(src lines 299-348).  `render` is the `Result<()>` value the render
thread's closure produced (an I/O write failure makes it an error and ends
the render loop), `task` the task's own result, `finalWrite` the outcome
of the closing `writeln!`/`flush` pair.  The source joins the render
thread and then applies `?` to its value (`spinner.join().unwrap()?`,
src line 331), so a render error becomes the outer `Error::Io`; otherwise
the final write runs and the task's result is returned nested intact. -/
def staticBackgroundSpinnerResult {R E : Type} (render : Except IOErr Unit)
    (task : Except E R) (finalWrite : Except IOErr Unit) :
    Except Error (Except E R) :=
  match render with
  | Except.error e => Except.error (Error.io e)
  | Except.ok _ =>
    match finalWrite with
    | Except.error e => Except.error (Error.io e)
    | Except.ok _ => Except.ok task

/-- Result assembly of `Clytia::dynamic_background_spinner`
(src lines 382-443): identical propagation structure to the static
spinner (`spinner.join().unwrap()?`, src line 416). -/
def dynamicBackgroundSpinnerResult {R E : Type} (render : Except IOErr Unit)
    (task : Except E R) (finalWrite : Except IOErr Unit) :
    Except Error (Except E R) :=
  match render with
  | Except.error e => Except.error (Error.io e)
  | Except.ok _ =>
    match finalWrite with
    | Except.error e => Except.error (Error.io e)
    | Except.ok _ => Except.ok task

/-- Result assembly of `Clytia::progress_bar` (src lines 469-596).  Unlike
the two spinners, the handle returned by `scope.spawn` on src line 486 is
discarded: the render thread is joined when the crossbeam scope ends, but
its `Result<()>` value is never read, so `render` does not influence the
returned value.  Only a failure in the final frame writes (`finalWrite`,
src lines 546-592, behind `?`) produces the outer `Error::Io`. -/
def progressBarResult {R E : Type} (render : Except IOErr Unit)
    (task : Except E R) (finalWrite : Except IOErr Unit) :
    Except Error (Except E R) :=
  let _ := render
  match finalWrite with
  | Except.error e => Except.error (Error.io e)
  | Except.ok _ => Except.ok task

/-- Events of one spinner / progress-bar invocation, in program order:
the spawn of the render thread, completion of the task closure, the store
to the cancellation flag, a join of the render thread, the final writes,
and the return from the library call. -/
inductive TEvent where
  | spawn
  | taskDone
  | flagSet
  | join
  | write
  | ret
deriving DecidableEq, BEq

/-- The events a trace performs before its first return event. -/
def eventsBeforeRet (t : List TEvent) : List TEvent :=
  t.takeWhile fun e => !(e == TEvent.ret)

/-- Structured-concurrency check on a trace: every spawned thread has been
joined by the time the call returns. -/
def joinedBeforeReturn (t : List TEvent) : Bool :=
  (eventsBeforeRet t).count TEvent.spawn ≤ (eventsBeforeRet t).count TEvent.join

/-- Event trace of `Clytia::static_background_spinner` (src lines 299-348)
as a function of the render thread's result and the final write's result.
The source runs the task, stores the flag, then explicitly joins
(`spinner.join()`, src line 331); `?` on the joined value exits after the
join, otherwise the closing write runs (itself behind `?`) and the call
returns.  crossbeam's `scope` re-joins already-joined threads as a no-op
when the closure finishes. -/
def staticBackgroundSpinnerTrace (render finalWrite : Except IOErr Unit) :
    List TEvent :=
  [TEvent.spawn, TEvent.taskDone, TEvent.flagSet, TEvent.join] ++
    (match render with
     | Except.error _ => [TEvent.ret]
     | Except.ok _ =>
       match finalWrite with
       | Except.error _ => [TEvent.write, TEvent.ret]
       | Except.ok _ => [TEvent.write, TEvent.ret])

/-- Event trace of `Clytia::dynamic_background_spinner`
(src lines 382-443): same structure, explicit join on src line 416. -/
def dynamicBackgroundSpinnerTrace (render finalWrite : Except IOErr Unit) :
    List TEvent :=
  [TEvent.spawn, TEvent.taskDone, TEvent.flagSet, TEvent.join] ++
    (match render with
     | Except.error _ => [TEvent.ret]
     | Except.ok _ =>
       match finalWrite with
       | Except.error _ => [TEvent.write, TEvent.ret]
       | Except.ok _ => [TEvent.write, TEvent.ret])

/-- Event trace of `Clytia::progress_bar` (src lines 469-596).  There is
no explicit join; the render thread is joined when the crossbeam scope
ends (crossbeam joins every scoped thread before `scope` returns), which
happens before the final frame is written and the call returns.  The
render thread's result value is discarded, so the trace does not depend
on it. -/
def progressBarTrace (render finalWrite : Except IOErr Unit) : List TEvent :=
  let _ := render
  [TEvent.spawn, TEvent.taskDone, TEvent.flagSet, TEvent.join] ++
    (match finalWrite with
     | Except.error _ => [TEvent.write, TEvent.ret]
     | Except.ok _ => [TEvent.write, TEvent.ret])

/-- Floor of the base-two logarithm of a natural number, with explicit
fuel so that the kernel can evaluate it structurally. -/
def log2fuel : Nat → Nat → Nat
  | 0, _ => 0
  | fuel + 1, n => if n ≤ 1 then 0 else log2fuel fuel (n / 2) + 1

/-- Exact nonnegative rationals are carried as unreduced numerator /
denominator pairs of naturals (denominator positive), so that every
computation below is plain natural arithmetic.  This predicate decides
`2 ^ e ≤ a / b` for a possibly negative exponent. -/
def pow2LePair (e : Int) (a b : Nat) : Bool :=
  if 0 ≤ e then b * 2 ^ e.toNat ≤ a else b ≤ a * 2 ^ (-e).toNat

/-- The unique `e` with `2 ^ e ≤ a / b < 2 ^ (e + 1)` for positive
`a / b`: first guess from the bit lengths of `a` and `b`, then adjust. -/
def floorLog2Pair (a b : Nat) : Int :=
  let e0 : Int := (log2fuel 128 a : Int) - (log2fuel 128 b : Int)
  if pow2LePair (e0 + 1) a b then e0 + 1
  else if pow2LePair e0 a b then e0
  else e0 - 1

/-- Round the nonnegative rational `a / b` to the nearest natural
number, ties to even (the remainder is compared with half the
denominator by doubling it). -/
def rnePair (a b : Nat) : Nat :=
  let f := a / b
  let r2 := 2 * (a - f * b)
  if r2 < b then f
  else if b < r2 then f + 1
  else if f % 2 = 0 then f else f + 1

/-- Round the nonnegative rational `a / b` (in the normal `f64` range)
to the nearest IEEE-754 binary64 value, round to nearest, ties to even:
scale into `[2 ^ 52, 2 ^ 53)`, round to an integer significand, scale
back.  This is the value every basic IEEE operation returns for an
exact rational result; the result is returned as another numerator /
denominator pair. -/
def roundF64Pair (a b : Nat) : Nat × Nat :=
  if a = 0 then (0, 1)
  else
    let e := floorLog2Pair a b
    let k : Int := 52 - e
    let m :=
      if 0 ≤ k then rnePair (a * 2 ^ k.toNat) b
      else rnePair a (b * 2 ^ (-k).toNat)
    if 0 ≤ k then (m, 2 ^ k.toNat) else (m * 2 ^ (-k).toNat, 1)

/-- The filled length computed on src lines 511-512:
`((bar_max_len as f64 / 100f64) * (progress as f64).round()) as usize`.
`bml` and `p` are below `2 ^ 53`, so their `f64` images are exact and
`.round()` on the exact integer `p` is the identity; the division
`bml / 100` and the multiplication by `p` each round their exact
rational result to the nearest double; the `as usize` cast of the
nonnegative result truncates, i.e. divides out the denominator. -/
def progressBarBarLen (bml p : Nat) : Nat :=
  let d := roundF64Pair bml 100
  let m := roundF64Pair (d.1 * p) d.2
  m.1 / m.2

/-- The tick gutter subtraction on src line 508: `cols - 9` on `usize`. -/
def progressBarBarMaxLen (cols : Nat) : Option Nat :=
  checkedSub cols 9

/-- The failure-frame gutter subtraction on src line 577:
`cols - 10` on `usize`. -/
def progressBarFailureBarMaxLen (cols : Nat) : Option Nat :=
  checkedSub cols 10

/-- A string of `n` copies of the character `c` (Rust `str::repeat`). -/
def repeatChar (c : Char) (n : Nat) : String :=
  ⟨List.replicate n c⟩

/-- Rust's `{:03}` formatting of a natural number. -/
def natPad3 (n : Nat) : String :=
  if n < 10 then "00" ++ toString n
  else if n < 100 then "0" ++ toString n
  else toString n

/-- The bar string one render tick of `Clytia::progress_bar` writes
(src lines 489-531) as a function of the terminal column count and the
value `p0` returned by `progress_func`.  The source sets
`complete = progress >= 100`, clamps `progress` to `100`, computes
`bar_max_len = cols - 9`, and renders either the partial bar
(src lines 514-524) with the `f64` filled length and a space padding of
`bar_max_len - bar_len`, or the full bar (src lines 526-530). -/
def progressBarTickBar (cols p0 : Nat) : Option String :=
  (checkedSub cols 9).bind fun bml =>
    if 100 ≤ p0 then
      some ("[" ++ repeatChar '=' bml ++ "=| " ++
        natPad3 (if 100 < p0 then 100 else p0) ++ "%]")
    else
      let bl := progressBarBarLen bml p0
      (checkedSub bml bl).map fun sp =>
        "[" ++ repeatChar '=' bl ++ ">" ++ repeatChar ' ' sp ++ "| " ++
          natPad3 p0 ++ "%]"

/-! ## Theorems -/

/-- C8: `parsed_input` called with no default and an empty input line
returns the non-optional-input error (`Error::NonOptionalInput`); called
with a default and an empty input line it returns the default value. -/
theorem parsed_input_empty_line {T : Type} (parse : String → Option T)
    (d : T) :
    parsedInput parse none (some "") = Except.error Error.nonOptionalInput ∧
    parsedInput parse (some d) (some "") = Except.ok d :=
  ⟨rfl, rfl⟩

/-- C1 counterexample: `options_menu` invoked on an empty option list with
an immediate Enter key does not return any error value: it panics
(out-of-bounds index into the empty option slice, src line 680), modelled
by the result `none`. -/
theorem zero_options_menu_panics_at_enter :
    optionsMenu ([] : List String) [MKey.char '\n'] = none :=
  rfl

/-- C1 amended: with zero options the menus never produce an explicit
invalid-option-set error (no such variant exists in the library's
`Error` enum); `options_menu` panics on every key sequence (modulo by
zero on Up/Down, out-of-bounds indexing on Enter or on input exhaustion),
while `multichoice` panics on Up/Down but returns an empty `Ok` result
when concluded by Enter or by exhaustion of the key events. -/
theorem zero_options_actual_behavior :
    (∀ keys : List MKey, optionsMenu ([] : List String) keys = none) ∧
    multichoice ([] : List String) [MKey.char '\n'] = some [] ∧
    multichoice ([] : List String) [] = some [] ∧
    multichoice ([] : List String) [MKey.up] = none ∧
    multichoice ([] : List String) [MKey.down] = none := by
  refine ⟨fun keys => ?_, rfl, rfl, rfl, rfl⟩
  unfold optionsMenu
  cases optionsMenuLoop ([] : List String).length 0 keys with
  | none => rfl
  | some sel => cases sel <;> rfl

/-- C3 counterexample: an I/O failure of the render loop of
`progress_bar` is not surfaced: the call still returns the task's result
as `Ok`, not the outer I/O error, because the spawn handle (and with it
the render thread's `Result`) is discarded on src line 486.  The static
spinner, by contrast, does surface the same failure. -/
theorem progress_bar_swallows_render_error :
    @progressBarResult Unit Unit (Except.error 0) (Except.ok ())
        (Except.ok ()) = Except.ok (Except.ok ()) ∧
    @progressBarResult Unit Unit (Except.error 0) (Except.ok ())
        (Except.ok ()) ≠ Except.error (Error.io 0) ∧
    @staticBackgroundSpinnerResult Unit Unit (Except.error 0)
        (Except.ok ()) (Except.ok ()) = Except.error (Error.io 0) :=
  ⟨rfl, fun h => Except.noConfusion h, rfl⟩

/-- C3 amended: a render-loop I/O failure aborts the loop and surfaces as
the outer `Error::Io` of the call for `static_background_spinner` and
`dynamic_background_spinner` (after the explicit join); for
`progress_bar` the render thread's result is discarded, so the value the
call returns is independent of the render outcome. -/
theorem render_error_propagation {R E : Type} (e : IOErr)
    (task : Except E R) (fw : Except IOErr Unit)
    (render : Except IOErr Unit) :
    staticBackgroundSpinnerResult (Except.error e) task fw =
      Except.error (Error.io e) ∧
    dynamicBackgroundSpinnerResult (Except.error e) task fw =
      Except.error (Error.io e) ∧
    progressBarResult render task fw = progressBarResult (Except.ok ()) task fw :=
  ⟨rfl, rfl, rfl⟩

/-- C4: in all three render-thread operations, every path of the call
joins the spawned render thread before the call returns, whatever the
render loop's and the final write's outcomes (and hence whatever the
task's outcome, which the traces do not depend on). -/
theorem render_thread_always_joined (render fw : Except IOErr Unit) :
    joinedBeforeReturn (staticBackgroundSpinnerTrace render fw) = true ∧
    joinedBeforeReturn (dynamicBackgroundSpinnerTrace render fw) = true ∧
    joinedBeforeReturn (progressBarTrace render fw) = true := by
  cases render <;> cases fw <;> exact ⟨rfl, rfl, rfl⟩

/-- Model of Rust's `str::parse::<usize>` for concrete instances: an
optional leading plus sign followed by one or more ASCII digits. -/
def parseUsize (s : String) : Option Nat :=
  let l := match s.data with
    | '+' :: rest => rest
    | l => l
  if l = [] then none
  else if l.all Char.isDigit then
    some (l.foldl (fun n c => n * 10 + (c.toNat - '0'.toNat)) 0)
  else none

/-- C2 counterexample: `validated_input` returns before the predicate has
succeeded and before the input source is exhausted: a line that fails to
parse is surfaced immediately as `Error::ParseError` (src line 255), here
with a further line still unread that would have parsed and validated. -/
theorem validated_input_returns_parse_error_early :
    validatedInputLoop parseUsize (fun v => decide (v ≤ 10)) 5
        [some "abc", some "5"] =
      some (Except.error (Error.parseError "abc")) ∧
    parseUsize "5" = some 5 ∧
    decide ((5 : Nat) ≤ 10) = true := by
  refine ⟨?_, by decide, by decide⟩
  decide

/-- C2 amended: `validated_input` never returns `Ok v` with
`validate v = false`; but it can return early with a parse error, and on
an exhausted input source (every read yields no line) it re-prompts and
continues forever: no number of loop iterations makes it return. -/
theorem validated_input_actual_behavior {T : Type}
    (parse : String → Option T) (validate : T → Bool) (fuel : Nat)
    (inputs : List (Option String)) (v : T) :
    (validatedInputLoop parse validate fuel inputs = some (Except.ok v) →
      validate v = true) ∧
    validatedInputLoop parse validate fuel [] = none := by
  constructor
  · induction fuel generalizing inputs with
    | zero => intro h; exact Option.noConfusion h
    | succ fuel ih =>
      intro h
      unfold validatedInputLoop at h
      split at h
      · exact ih _ h
      · split at h
        · exact ih _ h
        · split at h
          · exact Except.noConfusion (Option.some.inj h)
          · split at h
            · cases Except.ok.inj (Option.some.inj h)
              assumption
            · exact ih _ h
  · induction fuel with
    | zero => rfl
    | succ fuel ih => exact ih

/-- C2 witness: the amended statement at a concrete instance. -/
theorem validated_input_actual_behavior_witness :
    (validatedInputLoop parseUsize (fun v => decide (v ≤ 10)) 3
        [some "7"] = some (Except.ok 7) →
      decide ((7 : Nat) ≤ 10) = true) ∧
    validatedInputLoop parseUsize (fun v => decide (v ≤ 10)) 3 [] =
      none :=
  validated_input_actual_behavior parseUsize
    (fun v => decide (v ≤ 10)) 3 [some "7"] 7

/-- Helper: in the options menu, `k` Down presses move the highlight from
`h` to `(h + k) % n`. -/
theorem optionsMenuLoop_down (n : Nat) (hn : 0 < n) :
    ∀ (k h : Nat), h < n →
      optionsMenuLoop n h (List.replicate k MKey.down) = some ((h + k) % n) := by
  intro k
  induction k with
  | zero =>
    intro h hh
    simp [optionsMenuLoop, Nat.mod_eq_of_lt hh]
  | succ k ih =>
    intro h hh
    rw [List.replicate_succ]
    show (checkedMod (h + 1) n).bind
        (fun s => optionsMenuLoop n s (List.replicate k MKey.down)) = _
    rw [checkedMod, if_neg (Nat.pos_iff_ne_zero.mp hn), Option.some_bind]
    rw [ih ((h + 1) % n) (Nat.mod_lt _ hn)]
    have hcong : ((h + 1) % n + k) % n = ((h + 1) + k) % n :=
      (Nat.mod_modEq (h + 1) n).add_right k
    rw [hcong]
    have : h + 1 + k = h + (k + 1) := by omega
    rw [this]

/-- Helper: in the options menu, `k` Up presses move the highlight from
`h` to `(h + k * (n - 1)) % n`. -/
theorem optionsMenuLoop_up (n : Nat) (hn : 0 < n) :
    ∀ (k h : Nat), h < n →
      optionsMenuLoop n h (List.replicate k MKey.up) =
        some ((h + k * (n - 1)) % n) := by
  intro k
  induction k with
  | zero =>
    intro h hh
    simp [optionsMenuLoop, Nat.mod_eq_of_lt hh]
  | succ k ih =>
    intro h hh
    rw [List.replicate_succ]
    show (((checkedSub (h + n) 1).bind fun s => checkedMod s n).bind
        fun s => optionsMenuLoop n s (List.replicate k MKey.up)) = _
    rw [checkedSub, if_pos (by omega : 1 ≤ h + n), Option.some_bind,
      checkedMod, if_neg (Nat.pos_iff_ne_zero.mp hn), Option.some_bind]
    rw [ih ((h + n - 1) % n) (Nat.mod_lt _ hn)]
    have hcong : ((h + n - 1) % n + k * (n - 1)) % n =
        ((h + n - 1) + k * (n - 1)) % n :=
      (Nat.mod_modEq (h + n - 1) n).add_right (k * (n - 1))
    rw [hcong]
    have hnum : h + n - 1 + k * (n - 1) = h + (k + 1) * (n - 1) := by
      have hm : (k + 1) * (n - 1) = k * (n - 1) + (n - 1) := Nat.succ_mul _ _
      omega
    rw [hnum]

/-- Helper: `(k * (n - 1)) % n = (n - k % n) % n` for positive `n`:
stepping backwards `k` times is stepping forward `n - k % n` steps. -/
theorem mul_pred_mod (n k : Nat) (hn : 0 < n) :
    (k * (n - 1)) % n = (n - k % n) % n := by
  have hk : k * (n - 1) % n = k % n * (n - 1) % n :=
    ((Nat.mod_modEq k n).symm).mul_right (n - 1)
  rw [hk]
  obtain ⟨r, hrlt, hreq⟩ : ∃ r, r < n ∧ k % n = r :=
    ⟨k % n, Nat.mod_lt _ hn, rfl⟩
  rw [hreq]
  rcases Nat.eq_zero_or_pos r with h0 | hpos
  · subst h0
    simp
  · have hnum : r * (n - 1) = (n - r) + (r - 1) * n := by
      have h2 : r * (n - 1) + r = r * n := by
        cases n with
        | zero => exact absurd hn (by omega)
        | succ m => simp [Nat.mul_succ]
      have h4 : (r - 1) * n + n = r * n := by
        cases r with
        | zero => exact absurd hpos (by omega)
        | succ j => simp [Nat.succ_mul]
      omega
    rw [hnum, Nat.add_mul_mod_self_right]

/-- Helper: in the multichoice menu, `k` Down presses move the highlight
from `h` to `(h + k) % n` and leave the selection untouched. -/
theorem multichoiceLoop_down (n : Nat) (hn : 0 < n) :
    ∀ (k h : Nat) (sel : List Nat), h < n →
      multichoiceLoop n h sel (List.replicate k MKey.down) =
        some ((h + k) % n, sel) := by
  intro k
  induction k with
  | zero =>
    intro h sel hh
    simp [multichoiceLoop, Nat.mod_eq_of_lt hh]
  | succ k ih =>
    intro h sel hh
    rw [List.replicate_succ]
    show (checkedMod (h + 1) n).bind
        (fun s => multichoiceLoop n s sel (List.replicate k MKey.down)) = _
    rw [checkedMod, if_neg (Nat.pos_iff_ne_zero.mp hn), Option.some_bind]
    rw [ih ((h + 1) % n) sel (Nat.mod_lt _ hn)]
    have hcong : ((h + 1) % n + k) % n = ((h + 1) + k) % n :=
      (Nat.mod_modEq (h + 1) n).add_right k
    rw [hcong]
    have : h + 1 + k = h + (k + 1) := by omega
    rw [this]

/-- Helper: in the multichoice menu, `k` Up presses move the highlight
from `h` to `(h + k * (n - 1)) % n` and leave the selection untouched. -/
theorem multichoiceLoop_up (n : Nat) (hn : 0 < n) :
    ∀ (k h : Nat) (sel : List Nat), h < n →
      multichoiceLoop n h sel (List.replicate k MKey.up) =
        some ((h + k * (n - 1)) % n, sel) := by
  intro k
  induction k with
  | zero =>
    intro h sel hh
    simp [multichoiceLoop, Nat.mod_eq_of_lt hh]
  | succ k ih =>
    intro h sel hh
    rw [List.replicate_succ]
    show (((checkedSub (h + n) 1).bind fun s => checkedMod s n).bind
        fun s => multichoiceLoop n s sel (List.replicate k MKey.up)) = _
    rw [checkedSub, if_pos (by omega : 1 ≤ h + n), Option.some_bind,
      checkedMod, if_neg (Nat.pos_iff_ne_zero.mp hn), Option.some_bind]
    rw [ih ((h + n - 1) % n) sel (Nat.mod_lt _ hn)]
    have hcong : ((h + n - 1) % n + k * (n - 1)) % n =
        ((h + n - 1) + k * (n - 1)) % n :=
      (Nat.mod_modEq (h + n - 1) n).add_right (k * (n - 1))
    rw [hcong]
    have hnum : h + n - 1 + k * (n - 1) = h + (k + 1) * (n - 1) := by
      have hm : (k + 1) * (n - 1) = k * (n - 1) + (n - 1) := Nat.succ_mul _ _
      omega
    rw [hnum]

/-- C6: in both menus, for any option count n at least 1, `k` Down
presses from initial highlight 0 leave the highlight at `k % n` and `k`
Up presses leave it at `(n - k % n) % n`; an Enter key ends the loop with
the state unchanged, and any other key leaves the state unchanged. -/
theorem menu_navigation (n k : Nat) (hn : 1 ≤ n) :
    optionsMenuLoop n 0 (List.replicate k MKey.down) = some (k % n) ∧
    optionsMenuLoop n 0 (List.replicate k MKey.up) =
      some ((n - k % n) % n) ∧
    multichoiceLoop n 0 [] (List.replicate k MKey.down) =
      some (k % n, []) ∧
    multichoiceLoop n 0 [] (List.replicate k MKey.up) =
      some ((n - k % n) % n, []) ∧
    (∀ (sel : Nat) (rest : List MKey),
      optionsMenuLoop n sel (MKey.char '\n' :: rest) = some sel) ∧
    (∀ (h : Nat) (sel : List Nat) (rest : List MKey),
      multichoiceLoop n h sel (MKey.char '\n' :: rest) = some (h, sel)) ∧
    (∀ (sel : Nat) (rest : List MKey),
      optionsMenuLoop n sel (MKey.other :: rest) =
        optionsMenuLoop n sel rest) ∧
    (∀ (h : Nat) (sel : List Nat) (rest : List MKey),
      multichoiceLoop n h sel (MKey.other :: rest) =
        multichoiceLoop n h sel rest) := by
  refine ⟨?_, ?_, ?_, ?_, fun sel rest => rfl, fun h sel rest => rfl,
    fun sel rest => rfl, fun h sel rest => rfl⟩
  · have := optionsMenuLoop_down n hn k 0 hn
    simpa using this
  · have := optionsMenuLoop_up n hn k 0 hn
    rw [this, Nat.zero_add, mul_pred_mod n k hn]
  · have := multichoiceLoop_down n hn k 0 [] hn
    simpa using this
  · have := multichoiceLoop_up n hn k 0 [] hn
    rw [this, Nat.zero_add, mul_pred_mod n k hn]

/-- C6 witness: the navigation statement at n = 3, k = 5. -/
theorem menu_navigation_witness :
    optionsMenuLoop 3 0 (List.replicate 5 MKey.down) = some (5 % 3) ∧
    optionsMenuLoop 3 0 (List.replicate 5 MKey.up) =
      some ((3 - 5 % 3) % 3) :=
  ⟨(menu_navigation 3 5 (by decide)).1, (menu_navigation 3 5 (by decide)).2.1⟩

/-- C7: a multichoice run that concludes returns exactly the options
whose index is in the final selected set, in original option order (the
result is always an in-order sublist of the option sequence, whatever
the toggle order was).  Concretely on the three-option example: toggling
indices 0 and 2 (in either toggle order) and pressing Enter returns the
first and third option in option order; toggling the same index twice
leaves it unselected, and zero toggles yield the empty result. -/
theorem multichoice_selection_in_option_order {A : Type}
    (options : List A) (keys : List MKey) (r : List A) :
    (multichoice options keys = some r → r.Sublist options) ∧
    multichoice ["cats", "dogs", "rabbits"]
        [MKey.char ' ', MKey.down, MKey.down, MKey.char ' ',
          MKey.char '\n'] =
      some ["cats", "rabbits"] ∧
    multichoice ["cats", "dogs", "rabbits"]
        [MKey.down, MKey.down, MKey.char ' ', MKey.up, MKey.up,
          MKey.char ' ', MKey.char '\n'] =
      some ["cats", "rabbits"] ∧
    multichoice ["cats", "dogs", "rabbits"]
        [MKey.char ' ', MKey.char ' ', MKey.char '\n'] = some [] ∧
    multichoice ["cats", "dogs", "rabbits"] [MKey.char '\n'] = some [] := by
  refine ⟨?_, by decide, by decide, by decide, by decide⟩
  intro hr
  unfold multichoice at hr
  cases hst : multichoiceLoop options.length 0 [] keys with
  | none => rw [hst] at hr; exact Option.noConfusion hr
  | some st =>
    rw [hst] at hr
    have hr2 := Option.some.inj hr
    subst hr2
    have h1 : (options.enum.filter fun p => p.1 ∈ st.2).Sublist
        options.enum := List.filter_sublist _
    have h2 := h1.map Prod.snd
    have h3 : options.enum.map Prod.snd = options :=
      List.enumFrom_map_snd 0 options
    rw [h3] at h2
    exact h2

/-- C7 witness: the sublist conclusion at the concrete example run. -/
theorem multichoice_selection_in_option_order_witness :
    List.Sublist ["cats", "rabbits"] ["cats", "dogs", "rabbits"] :=
  (multichoice_selection_in_option_order ["cats", "dogs", "rabbits"]
      [MKey.char ' ', MKey.down, MKey.down, MKey.char ' ', MKey.char '\n']
      ["cats", "rabbits"]).1 (by decide)

/-- C5 counterexample: the rendered filled length is not
`floor(barMaxLen * round(min(p, 100)) / 100)`.  At terminal width 67
(`bar_max_len = 58`) and progress 50 the `f64` computation of
src lines 511-512 yields 28 filled cells while the exact formula gives
29; the full tick frame shows the 28-cell bar. -/
theorem progress_bar_filled_length_deviates :
    progressBarBarLen 58 50 = 28 ∧
    58 * 50 / 100 = 29 ∧
    progressBarTickBar 67 50 =
      some ("[" ++ repeatChar '=' 28 ++ ">" ++ repeatChar ' ' 30 ++
        "| 050%]") := by
  refine ⟨by decide, by decide, ?_⟩
  decide

/-- C5 amended: the filled length of a tick frame is the `f64` value
`trunc(fl(fl(bar_max_len / 100) * p))` of `progressBarBarLen`, which can
fall one short of `floor(bar_max_len * p / 100)`; the clamping claim
does hold: every progress value above 100 renders a frame identical to
the one for exactly 100 (a full bar labelled 100%). -/
theorem progress_bar_overfull_clamped (cols p : Nat) (h : 100 < p) :
    progressBarTickBar cols p = progressBarTickBar cols 100 := by
  have h1 : (100 ≤ p) = True := by simp [Nat.le_of_lt h]
  have h2 : (100 < p) = True := by simp [h]
  simp only [progressBarTickBar, h1, h2, if_true]
  simp

/-- C5 witness: the clamp equation at terminal width 80 and progress
150. -/
theorem progress_bar_overfull_clamped_witness :
    progressBarTickBar 80 150 = progressBarTickBar 80 100 :=
  progress_bar_overfull_clamped 80 150 (by decide)

/-- C9: the tick-frame gutter subtraction `cols - 9` (src line 508)
succeeds exactly when the terminal has at least 9 columns, the
failure-frame subtraction `cols - 10` (src line 577) exactly when it has
at least 10; on a narrower terminal the render tick does not produce an
error value of the library's `Error` type: it terminates abruptly
(unsigned underflow panic, modelled as `none`). -/
theorem progress_bar_gutter_underflow (cols p : Nat) :
    ((progressBarBarMaxLen cols).isSome ↔ 9 ≤ cols) ∧
    ((progressBarFailureBarMaxLen cols).isSome ↔ 10 ≤ cols) ∧
    (cols < 9 → progressBarTickBar cols p = none) := by
  refine ⟨?_, ?_, ?_⟩
  · unfold progressBarBarMaxLen checkedSub
    by_cases h9 : 9 ≤ cols <;> simp [h9]
  · unfold progressBarFailureBarMaxLen checkedSub
    by_cases h10 : 10 ≤ cols <;> simp [h10]
  · intro hlt
    have h9 : (9 ≤ cols) = False := by
      simp only [eq_iff_iff, iff_false]
      omega
    simp only [progressBarTickBar, checkedSub, h9, if_false,
      Option.none_bind]

/-- C9 witness: an 8-column terminal makes the render tick panic. -/
theorem progress_bar_gutter_underflow_witness :
    progressBarTickBar 8 0 = none :=
  (progress_bar_gutter_underflow 8 0).2.2 (by decide)

/-- Helper: dropping a prefix by a predicate twice is the same as
dropping it once. -/
theorem dropWhile_dropWhile {A : Type} (p : A → Bool) (l : List A) :
    (l.dropWhile p).dropWhile p = l.dropWhile p := by
  induction l with
  | nil => rfl
  | cons a t ih =>
    by_cases hpa : p a
    · simp [List.dropWhile_cons, hpa, ih]
    · simp [List.dropWhile_cons, hpa]

/-- Helper: trimming trailing whitespace is idempotent. -/
theorem trimEndChars_idem (l : List Char) :
    trimEndChars (trimEndChars l) = trimEndChars l := by
  unfold trimEndChars
  rw [List.reverse_reverse, dropWhile_dropWhile]

/-- Helper: trimming trailing whitespace of a nonempty list yields the
empty list or keeps the original head. -/
theorem trimEndChars_cons (a : Char) (t : List Char) :
    trimEndChars (a :: t) = [] ∨ ∃ u, trimEndChars (a :: t) = a :: u := by
  unfold trimEndChars
  rw [List.reverse_cons, List.dropWhile_append]
  by_cases he : (t.reverse.dropWhile rustIsWhitespace).isEmpty
  · rw [if_pos he]
    by_cases hwa : rustIsWhitespace a
    · left
      simp [List.dropWhile_cons, hwa]
    · right
      exact ⟨[], by simp [List.dropWhile_cons, hwa]⟩
  · rw [if_neg he]
    right
    exact ⟨(t.reverse.dropWhile rustIsWhitespace).reverse, by simp⟩

/-- Helper: a list already trimmed at the front stays trimmed at the
front after trimming its end. -/
theorem trimStart_trimEnd (l : List Char)
    (hl : l.dropWhile rustIsWhitespace = l) :
    (trimEndChars l).dropWhile rustIsWhitespace = trimEndChars l := by
  cases l with
  | nil => rfl
  | cons a t =>
    have hwa : rustIsWhitespace a = false := by
      cases hb : rustIsWhitespace a
      · rfl
      · rw [List.dropWhile_cons, if_pos hb] at hl
        have hlen := congrArg List.length hl
        have hle := (List.dropWhile_sublist (l := t)
          (p := rustIsWhitespace)).length_le
        simp at hlen
        omega
    rcases trimEndChars_cons a t with h0 | ⟨u, hu⟩
    · rw [h0]
      rfl
    · rw [hu, List.dropWhile_cons, if_neg (by simp [hwa])]

/-- Helper: the trimming pipeline of the source is idempotent. -/
theorem codeTrim_idem (s : String) : codeTrim (codeTrim s) = codeTrim s := by
  have hu : (s.data.dropWhile rustIsWhitespace).dropWhile rustIsWhitespace =
      s.data.dropWhile rustIsWhitespace :=
    dropWhile_dropWhile _ _
  show String.mk (trimEndChars (trimEndChars (List.dropWhile rustIsWhitespace
      (trimEndChars (trimEndChars
        (List.dropWhile rustIsWhitespace s.data)))))) =
    String.mk (trimEndChars (trimEndChars
      (List.dropWhile rustIsWhitespace s.data)))
  apply congrArg
  simp only [trimEndChars_idem, trimStart_trimEnd _ hu]

/-- Helper: a line of nothing but whitespace trims to the empty string. -/
theorem codeTrim_of_all_ws (s : String)
    (h : s.data.all rustIsWhitespace = true) : codeTrim s = "" := by
  have h1 : s.data.dropWhile rustIsWhitespace = [] :=
    List.dropWhile_eq_nil_iff.mpr fun x hx => List.all_eq_true.mp h x hx
  show String.mk (trimEndChars (trimEndChars
    (List.dropWhile rustIsWhitespace s.data))) = ""
  rw [h1]
  rfl

/-- C10: `parsed_input` and `validated_input` trim the read line before
both the emptiness check and parsing: a whitespace-only line behaves
exactly like an empty line (default value / `NonOptionalInput` for
`parsed_input`, a re-prompting continue for `validated_input`), the line
is interchangeable with its trimmed text, and a failed parse reports the
trimmed text, never the raw line, as the `ParseError` payload. -/
theorem prompt_input_trimming {T : Type} (parse : String → Option T)
    (d : Option T) (validate : T → Bool) (fuel : Nat) (line : String)
    (inputs : List (Option String)) :
    (line.data.all rustIsWhitespace = true →
      parsedInput parse d (some line) = parsedInput parse d (some "")) ∧
    parsedInput parse d (some line) =
      parsedInput parse d (some (codeTrim line)) ∧
    (line.data.all rustIsWhitespace = true →
      validatedInputLoop parse validate (fuel + 1) (some line :: inputs) =
        validatedInputLoop parse validate fuel inputs) ∧
    validatedInputLoop parse validate (fuel + 1) (some line :: inputs) =
      validatedInputLoop parse validate (fuel + 1)
        (some (codeTrim line) :: inputs) ∧
    (codeTrim line ≠ "" → parse (codeTrim line) = none →
      parsedInput parse d (some line) =
        Except.error (Error.parseError (codeTrim line))) := by
  have hinv : parsedInput parse d (some line) =
      parsedInput parse d (some (codeTrim line)) := by
    simp only [parsedInput, codeTrim_idem]
  refine ⟨?_, hinv, ?_, ?_, ?_⟩
  · intro hws
    rw [hinv, codeTrim_of_all_ws line hws]
  · intro hws
    have hct := codeTrim_of_all_ws line hws
    simp [validatedInputLoop, hct]
  · simp only [validatedInputLoop, List.headD_cons, List.tail_cons,
      codeTrim_idem]
  · intro hne hp
    simp only [parsedInput]
    rw [if_neg hne, hp]

/-- C10 witness: the trimming statement at concrete lines. -/
theorem prompt_input_trimming_witness :
    parsedInput parseUsize (none : Option Nat) (some " ") =
      parsedInput parseUsize none (some "") ∧
    parsedInput parseUsize (none : Option Nat) (some " 7a ") =
      Except.error (Error.parseError (codeTrim " 7a ")) :=
  ⟨(prompt_input_trimming parseUsize none (fun _ => true) 0 " " []).1
      (by decide),
    (prompt_input_trimming parseUsize none (fun _ => true) 0 " 7a " []
      ).2.2.2.2 (by decide) (by decide)⟩

end Clytia
